import Mathlib

/-!
# List handlers of `cmd/lists.go`

A shallow embedding of the four HTTP handlers `handleGetLists`,
`handleCreateList`, `handleUpdateList` and `handleDeleteLists`.

* Go `int` / `int64` values are `Int`; the one place where the handlers do
  arithmetic (`res[i].SubscriberCount += c`) wraps at 64 bits (`wrapInt`).
* A Go slice that may be `nil` (`Tags`) is an `Option (List String)`:
  `none` is the nil slice, `some []` is `make([]string, 0)`.
* A Go `map[string]int` is the list of its entries in the order in which the
  `range` statement visits them.
* A handler returns a `Result`: the effects it performed on its collaborators
  (`c.Bind` and the calls on `app.core`), in order, and what it handed back to
  the framework (a JSON response written with `c.JSON`, or an error value).
  `c.JSON` itself is taken to succeed, and `int` is 64 bits wide.
-/

/-! ## Go standard library pieces used by the handlers -/

/-- Go `http.StatusOK`. -/
def http.StatusOK : Int := 200

/-- Go `http.StatusBadRequest`. -/
def http.StatusBadRequest : Int := 400

/-- Wrap an integer into the range of a 64 bit two's complement Go `int`. -/
def wrapInt (x : Int) : Int := (x + 2 ^ 63) % 2 ^ 64 - 2 ^ 63

/-- The values a Go `int` (64 bit) can hold. -/
def isGoInt (x : Int) : Prop := -(2 ^ 63) ≤ x ∧ x < 2 ^ 63

instance (x : Int) : Decidable (isGoInt x) := by
  unfold isGoInt; exact inferInstance

/-- Go `a + c` on `int`: addition that wraps at 64 bits. -/
def addInt (a c : Int) : Int := wrapInt (a + c)

/-- Go `len(s)` on a string: its length in bytes. -/
def len (s : String) : Int := (s.utf8ByteSize : Int)

/-! The integer parsers read the string byte by byte. Here they read it character
by character: a character outside ASCII stands for bytes none of which is a decimal
digit, and the first of them ends the scan in the same way. -/

/-- The two error kinds of a `*strconv.NumError`. -/
inductive strconv.NumError where
  | ErrSyntax
  | ErrRange
  deriving DecidableEq, Repr

/-- The byte loop of Go `strconv.ParseUint(s, 10, 64)` with `n` accumulated so far.
A byte that is not a decimal digit ends the scan with `(0, ErrSyntax)`; when `n` has
reached the cutoff `maxUint64/10 + 1`, or adding the digit wraps around, the scan
ends at once with `(maxUint64, ErrRange)` and the bytes that follow are not read. -/
def strconv.parseUintLoop : Nat → List Char → Nat × Option strconv.NumError
  | n, [] => (n, none)
  | n, ch :: rest =>
    if ch.isDigit then
      let d := ch.toNat - 48
      if n ≥ (2 ^ 64 - 1) / 10 + 1 then
        (2 ^ 64 - 1, some .ErrRange)
      else
        let n10 := (n * 10) % 2 ^ 64
        let n1 := (n10 + d) % 2 ^ 64
        if n1 < n10 ∨ n1 > 2 ^ 64 - 1 then
          (2 ^ 64 - 1, some .ErrRange)
        else
          strconv.parseUintLoop n1 rest
    else
      (0, some .ErrSyntax)

/-- Go `strconv.ParseUint(s, 10, 64)` on the bytes `s`. -/
def strconv.ParseUint (s : List Char) : Nat × Option strconv.NumError :=
  match s with
  | [] => (0, some .ErrSyntax)
  | _ :: _ => strconv.parseUintLoop 0 s

/-- The tail of Go `strconv.ParseInt` after the sign has been picked off: convert
the unsigned part and check the range. A syntax error gives 0; a range error of
`ParseUint` is kept and its `maxUint64` is clamped like any value that does not fit. -/
def strconv.parseIntSigned (neg : Bool) (s : List Char) : Int × Option strconv.NumError :=
  match strconv.ParseUint s with
  | (_, some .ErrSyntax) => (0, some .ErrSyntax)
  | (un, _) =>
    let cutoff : Nat := 2 ^ 63
    if !neg && decide (un ≥ cutoff) then
      ((cutoff : Int) - 1, some .ErrRange)
    else if neg && decide (un > cutoff) then
      (-(cutoff : Int), some .ErrRange)
    else
      (if neg then -(un : Int) else (un : Int), none)

/-- Go `strconv.ParseInt(s, 10, 64)`: the value and the error. -/
def strconv.ParseInt (s : String) : Int × Option strconv.NumError :=
  match s.data with
  | [] => (0, some .ErrSyntax)
  | '+' :: rest => strconv.parseIntSigned false rest
  | '-' :: rest => strconv.parseIntSigned true rest
  | rest => strconv.parseIntSigned false rest

/-- The byte loop of the fast path of Go `strconv.Atoi`: `none` on a byte that is
not a decimal digit. -/
def strconv.atoiLoop : Int → List Char → Option Int
  | n, [] => some n
  | n, ch :: rest =>
    if ch.isDigit then strconv.atoiLoop (n * 10 + ((ch.toNat - 48 : Nat) : Int)) rest else none

/-- The fast path of Go `strconv.Atoi` on the bytes left after the sign. -/
def strconv.atoiFast (neg : Bool) (s : List Char) : Int × Option strconv.NumError :=
  match strconv.atoiLoop 0 s with
  | none => (0, some .ErrSyntax)
  | some n => (if neg then -n else n, none)

/-- Go `strconv.Atoi(s)` where `int` has 64 bits: the value and the error. Strings
of 1 to 18 bytes take the fast path, all others go through `ParseInt(s, 10, 0)`. -/
def strconv.Atoi (s : String) : Int × Option strconv.NumError :=
  if 0 < len s ∧ len s < 19 then
    match s.data with
    | '-' :: rest => if rest.length < 1 then (0, some .ErrSyntax) else strconv.atoiFast true rest
    | '+' :: rest => if rest.length < 1 then (0, some .ErrSyntax) else strconv.atoiFast false rest
    | rest => strconv.atoiFast false rest
  else
    strconv.ParseInt s

/-- Go `strconv.ParseBool(s)` with the error dropped: `true` exactly for the
accepted spellings of true, `false` for everything else. -/
def strconv.ParseBool (s : String) : Bool :=
  s = "1" || s = "t" || s = "T" || s = "TRUE" || s = "true" || s = "True"

/-- Go `unicode.IsSpace`. -/
def unicode.IsSpace (ch : Char) : Bool :=
  let n := ch.toNat
  (9 ≤ n && n ≤ 13) || n = 32 || n = 0x85 || n = 0xA0 || n = 0x1680 ||
  (0x2000 ≤ n && n ≤ 0x200A) || n = 0x2028 || n = 0x2029 || n = 0x202F ||
  n = 0x205F || n = 0x3000

/-- Go `strings.TrimSpace`: drop leading and trailing white space. -/
def strings.TrimSpace (s : String) : String :=
  ⟨((s.data.dropWhile unicode.IsSpace).reverse.dropWhile unicode.IsSpace).reverse⟩

/-! ## Types declared outside `lists.go` -/

/-- A Go `[]string` that may be nil: `none` is the nil slice. -/
abbrev StringSlice := Option (List String)

/-- A Go `map[string]int`: its entries in the order a `range` statement visits them. -/
abbrev CountMap := List (String × Int)

/-- Modelled from the spec: the record type `models.List`, which is declared in
another package. Fields are those of the spec's data model: identity, name,
type, tags (a slice that may be nil), the derived subscriber count, the
per-state counts mapping, the timestamps and the replicated total. -/
structure models.List where
  ID : Int
  Name : String
  Type_ : String
  Tags : StringSlice
  SubscriberCount : Int
  SubscriberCounts : CountMap
  CreatedAt : Int
  UpdatedAt : Int
  Total : Int
  deriving DecidableEq, Repr

/-- A Go `error` value: an `*echo.HTTPError` built by `echo.NewHTTPError`, or
any other error. -/
inductive GoError where
  | HTTPError (code : Int) (message : String)
  | other (text : String)
  deriving DecidableEq, Repr

/-- Go `echo.NewHTTPError(code, message)`. -/
def echo.NewHTTPError (code : Int) (message : String) : GoError :=
  GoError.HTTPError code message

/-- Modelled from the spec: the struct returned by `getPagination`, declared
outside this file; page number, page size and the offset/limit pair. -/
structure pagination where
  PerPage : Int
  Page : Int
  Offset : Int
  Limit : Int
  deriving DecidableEq, Repr

/-- Go `url.Values`. -/
abbrev url.Values := List (String × List String)

/-- The Store (`app.core`): the operations the handlers call on it. -/
structure Core where
  GetLists : String → Except GoError (List models.List)
  QueryLists : String → String → String → Int → Int → Except GoError (List models.List)
  CreateList : models.List → Except GoError models.List
  UpdateList : Int → models.List → Except GoError models.List
  DeleteLists : List Int → Option GoError

/-- The message localizer (`app.i18n`). -/
structure I18n where
  T : String → String
  Ts : String → List String → String

/-- The application object `*App` fetched with `c.Get("app")`. -/
structure App where
  core : Core
  i18n : I18n

/-- The request context `echo.Context`, as far as the handlers read it. `Bind`
is what `c.Bind(&l)` does to a zero-valued `models.List`. -/
structure Context where
  app : App
  Param : String → String
  FormValue : String → String
  QueryParams : url.Values
  Bind : Except GoError models.List

/-! ## `lists.go` -/

/-- The struct `listsWrap`. -/
structure listsWrap where
  Results : List models.List
  Total : Int
  PerPage : Int
  Page : Int
  deriving DecidableEq, Repr

/-- The package variable `listQuerySortFields`. -/
def listQuerySortFields : List String :=
  ["name", "type", "subscriber_count", "created_at", "updated_at"]

/-- The `data` member of `okResp{...}` for the values the handlers put there. -/
inductive Data where
  | emptySeq
  | wrap (out : listsWrap)
  | list (l : models.List)
  | bool (b : Bool)
  deriving DecidableEq, Repr

/-- An effect of a handler on a collaborator. -/
inductive Effect where
  | Bind
  | GetLists (typ : String)
  | QueryLists (query orderBy order : String) (offset limit : Int)
  | CreateList (l : models.List)
  | UpdateList (id : Int) (l : models.List)
  | DeleteLists (ids : List Int)
  deriving DecidableEq, Repr

/-- What a handler hands back: `c.JSON(code, okResp{data})`, or an error; `panic`
is a run-time panic (indexing `res[0]` out of range). -/
inductive Outcome where
  | JSON (code : Int) (data : Data)
  | err (e : GoError)
  | panic
  deriving DecidableEq, Repr

/-- A run of a handler: its effects in order and its outcome. -/
structure Result where
  effects : List Effect
  out : Outcome
  deriving DecidableEq, Repr

/-- Modelled from the spec: the helper `strHasLen(str, min, max)`, defined
outside this file; the string has a length in `[min, max]`. -/
def strHasLen (str : String) (min max : Int) : Bool :=
  decide (min ≤ len str) && decide (len str ≤ max)

/-- The inner loop `for _, c := range v.SubscriberCounts { res[i].SubscriberCount += c }`. -/
def addCounts (count : Int) (counts : CountMap) : Int :=
  counts.foldl (fun acc kv => addInt acc kv.2) count

/-- One iteration of `for i, v := range res` on element `v`. -/
def fixRow (v : models.List) : models.List :=
  let tags := match v.Tags with
    | none => some []
    | some t => some t
  { v with Tags := tags, SubscriberCount := addCounts v.SubscriberCount v.SubscriberCounts }

/-- The loop `for i, v := range res { ... }` over the whole slice. -/
def fixRows : List models.List → List models.List
  | [] => []
  | v :: rest => fixRow v :: fixRows rest

/-- The handler `handleGetLists`. `getPagination` is defined outside this file and
is a parameter. -/
def handleGetLists (getPagination : url.Values → Int → pagination) (c : Context) : Result :=
  let app := c.app
  let pg := getPagination c.QueryParams 20
  let query := strings.TrimSpace (c.FormValue "query")
  let orderBy := c.FormValue "order_by"
  let order := c.FormValue "order"
  let minimal := strconv.ParseBool (c.FormValue "minimal")
  let listID := (strconv.Atoi (c.Param "id")).1
  let single := decide (listID > 0)
  if !single && minimal then
    match app.core.GetLists "" with
    | .error e => ⟨[.GetLists ""], .err e⟩
    | .ok res =>
      if res.length = 0 then
        ⟨[.GetLists ""], .JSON http.StatusOK .emptySeq⟩
      else
        ⟨[.GetLists ""], .JSON http.StatusOK
          (.wrap { Results := res, Total := res.length, Page := 1, PerPage := res.length })⟩
  else
    let eff := [Effect.QueryLists query orderBy order pg.Offset pg.Limit]
    match app.core.QueryLists query orderBy order pg.Offset pg.Limit with
    | .error e => ⟨eff, .err e⟩
    | .ok res =>
      if single && res.length = 0 then
        ⟨eff, .err (echo.NewHTTPError http.StatusBadRequest
          (app.i18n.Ts "globals.messages.notFound" ["name", "\x7bglobals.terms.list\x7d"]))⟩
      else if res.length = 0 then
        ⟨eff, .JSON http.StatusOK .emptySeq⟩
      else
        let res := fixRows res
        if single then
          match res[0]? with
          | none => ⟨eff, .panic⟩
          | some r0 => ⟨eff, .JSON http.StatusOK (.list r0)⟩
        else
          match res[0]? with
          | none => ⟨eff, .panic⟩
          | some r0 =>
            let total := r0.Total
            let perPage := if pg.PerPage = 0 then total else pg.PerPage
            ⟨eff, .JSON http.StatusOK
              (.wrap { Results := res, Total := total, Page := pg.Page, PerPage := perPage })⟩

/-- The handler `handleCreateList`. `stdInputMaxLen` is a constant defined outside
this file and is a parameter. -/
def handleCreateList (stdInputMaxLen : Int) (c : Context) : Result :=
  let app := c.app
  match c.Bind with
  | .error e => ⟨[.Bind], .err e⟩
  | .ok l =>
    if !strHasLen l.Name 1 stdInputMaxLen then
      ⟨[.Bind], .err (echo.NewHTTPError http.StatusBadRequest (app.i18n.T "lists.invalidName"))⟩
    else
      match app.core.CreateList l with
      | .error e => ⟨[.Bind, .CreateList l], .err e⟩
      | .ok out => ⟨[.Bind, .CreateList l], .JSON http.StatusOK (.list out)⟩

/-- The handler `handleUpdateList`. -/
def handleUpdateList (stdInputMaxLen : Int) (c : Context) : Result :=
  let app := c.app
  let id := (strconv.Atoi (c.Param "id")).1
  if id < 1 then
    ⟨[], .err (echo.NewHTTPError http.StatusBadRequest (app.i18n.T "globals.messages.invalidID"))⟩
  else
    match c.Bind with
    | .error e => ⟨[.Bind], .err e⟩
    | .ok l =>
      if !strHasLen l.Name 1 stdInputMaxLen then
        ⟨[.Bind], .err (echo.NewHTTPError http.StatusBadRequest (app.i18n.T "lists.invalidName"))⟩
      else
        match app.core.UpdateList id l with
        | .error e => ⟨[.Bind, .UpdateList id l], .err e⟩
        | .ok out => ⟨[.Bind, .UpdateList id l], .JSON http.StatusOK (.list out)⟩

/-- The handler `handleDeleteLists`. -/
def handleDeleteLists (c : Context) : Result :=
  let app := c.app
  let id := (strconv.ParseInt (c.Param "id")).1
  let ids : List Int := []
  if id < 1 && ids.length = 0 then
    ⟨[], .err (echo.NewHTTPError http.StatusBadRequest (app.i18n.T "globals.messages.invalidID"))⟩
  else
    let ids := if id > 0 then ids ++ [id] else ids
    match app.core.DeleteLists ids with
    | some e => ⟨[.DeleteLists ids], .err e⟩
    | none => ⟨[.DeleteLists ids], .JSON http.StatusOK (.bool true)⟩

/-! ## Vocabulary of the statements -/

/-- The answer of the Store to the `QueryLists` call that `handleGetLists` issues
for the request `c`. -/
def storeQuery (getPagination : url.Values → Int → pagination) (c : Context) :
    Except GoError (List models.List) :=
  c.app.core.QueryLists (strings.TrimSpace (c.FormValue "query")) (c.FormValue "order_by")
    (c.FormValue "order") (getPagination c.QueryParams 20).Offset
    (getPagination c.QueryParams 20).Limit

/-- The request takes the full-query path: it is not the case that no positive id
was supplied while `minimal` is set. -/
def fullQueryPath (c : Context) : Prop :=
  0 < (strconv.Atoi (c.Param "id")).1 ∨ strconv.ParseBool (c.FormValue "minimal") = false

instance (c : Context) : Decidable (fullQueryPath c) := by
  unfold fullQueryPath; exact inferInstance

/-- The `List` records carried by a response, in order. -/
def rowsOf : Outcome → List models.List
  | .JSON _ (.wrap w) => w.Results
  | .JSON _ (.list l) => [l]
  | _ => []

/-- The sum of the values of a counts mapping. -/
def countsSum (m : CountMap) : Int := (m.map Prod.snd).sum

/-- The name passes the length rule `[1, stdInputMaxLen]`. -/
def nameLenOk (stdInputMaxLen : Int) (l : models.List) : Prop :=
  1 ≤ len l.Name ∧ len l.Name ≤ stdInputMaxLen

instance (n : Int) (l : models.List) : Decidable (nameLenOk n l) := by
  unfold nameLenOk; exact inferInstance

/-! ## Sample collaborators and requests -/

/-- A pagination parser that ignores the query: page 1, the default page size. -/
def samplePagination : url.Values → Int → pagination :=
  fun _ n => { PerPage := n, Page := 1, Offset := 0, Limit := n }

/-- A localizer that returns the message key. -/
def sampleI18n : I18n := { T := fun k => k, Ts := fun k _ => k }

/-- A stored list with id 1, no tags, a subscriber count of 5 already in the
field, and one subscription state with one subscriber. -/
def sampleRow : models.List :=
  { ID := 1, Name := "news", Type_ := "public", Tags := none, SubscriberCount := 5,
    SubscriberCounts := [("subscribed", 1)], CreatedAt := 0, UpdatedAt := 0, Total := 1 }

/-- The same list as the Store's aggregating query leaves it: the count field at zero. -/
def sampleRowZero : models.List := { sampleRow with SubscriberCount := 0 }

/-- A Store holding `rows`: both listings return them, writes echo their argument. -/
def sampleCore (rows : List models.List) : Core :=
  { GetLists := fun _ => .ok rows
    QueryLists := fun _ _ _ _ _ => .ok rows
    CreateList := fun l => .ok l
    UpdateList := fun _ l => .ok l
    DeleteLists := fun _ => none }

/-- A request with path id `id`, form values `form`, and body `body`, against a
Store holding `rows`. -/
def sampleRequest (rows : List models.List) (id : String) (form : List (String × String))
    (body : models.List) : Context :=
  { app := { core := sampleCore rows, i18n := sampleI18n }
    Param := fun k => if k = "id" then id else ""
    FormValue := fun k => (form.lookup k).getD ""
    QueryParams := []
    Bind := .ok body }

/-! ## Auxiliary lemmas -/

theorem strconv.parseIntSigned_syntax (neg : Bool) (s : List Char) :
    (strconv.parseIntSigned neg s).2 = some .ErrSyntax → (strconv.parseIntSigned neg s).1 = 0 := by
  unfold strconv.parseIntSigned
  rcases strconv.ParseUint s with ⟨un, _ | _ | _⟩ <;> simp <;> split_ifs <;> simp

theorem strconv.ParseInt_syntax (s : String) :
    (strconv.ParseInt s).2 = some .ErrSyntax → (strconv.ParseInt s).1 = 0 := by
  unfold strconv.ParseInt
  split
  · intro _; rfl
  · exact strconv.parseIntSigned_syntax _ _
  · exact strconv.parseIntSigned_syntax _ _
  · exact strconv.parseIntSigned_syntax _ _

theorem strconv.atoiFast_syntax (neg : Bool) (s : List Char) :
    (strconv.atoiFast neg s).2 = some .ErrSyntax → (strconv.atoiFast neg s).1 = 0 := by
  unfold strconv.atoiFast
  cases strconv.atoiLoop 0 s <;> simp

theorem strconv.Atoi_syntax (s : String) :
    (strconv.Atoi s).2 = some .ErrSyntax → (strconv.Atoi s).1 = 0 := by
  unfold strconv.Atoi
  split_ifs
  · split
    · split_ifs
      · intro _; rfl
      · exact strconv.atoiFast_syntax _ _
    · split_ifs
      · intro _; rfl
      · exact strconv.atoiFast_syntax _ _
    · exact strconv.atoiFast_syntax _ _
  · exact strconv.ParseInt_syntax s

theorem wrapInt_add_left (x y : Int) : wrapInt (wrapInt x + y) = wrapInt (x + y) := by
  unfold wrapInt; norm_num; omega

theorem wrapInt_of_isGoInt (x : Int) (h : isGoInt x) : wrapInt x = x := by
  unfold wrapInt; unfold isGoInt at h; norm_num at *; omega

theorem isGoInt_wrapInt (x : Int) : isGoInt (wrapInt x) := by
  unfold wrapInt isGoInt; norm_num; omega

theorem wrapInt_addCounts (a : Int) (m : CountMap) :
    wrapInt (addCounts a m) = wrapInt (a + countsSum m) := by
  induction m generalizing a with
  | nil => simp [addCounts, countsSum]
  | cons kv rest ih =>
    have h := ih (addInt a kv.2)
    simp only [addCounts, countsSum, List.foldl_cons, List.map_cons, List.sum_cons] at h ⊢
    rw [h, addInt, wrapInt_add_left, add_assoc]

theorem isGoInt_addCounts (a : Int) (m : CountMap) (h : isGoInt a) :
    isGoInt (addCounts a m) := by
  induction m generalizing a with
  | nil => simpa [addCounts] using h
  | cons kv rest ih =>
    simp only [addCounts, List.foldl_cons]
    exact ih (addInt a kv.2) (isGoInt_wrapInt _)

/-- The accumulation loop yields the old field value plus the sum of the mapping
values, wrapped to 64 bits. -/
theorem addCounts_eq (a : Int) (m : CountMap) (h : isGoInt a) :
    addCounts a m = wrapInt (a + countsSum m) := by
  rw [← wrapInt_addCounts, wrapInt_of_isGoInt _ (isGoInt_addCounts a m h)]

/-- The order in which `range` visits the map entries does not matter. -/
theorem addCounts_perm (a : Int) (m m2 : CountMap) (h : isGoInt a) (hp : m.Perm m2) :
    addCounts a m = addCounts a m2 := by
  rw [addCounts_eq a m h, addCounts_eq a m2 h, countsSum, countsSum,
    (hp.map Prod.snd).sum_eq]

theorem fixRows_eq_map (res : List models.List) : fixRows res = res.map fixRow := by
  induction res with
  | nil => rfl
  | cons v rest ih => simp [fixRows, ih]

theorem fixRows_length (res : List models.List) : (fixRows res).length = res.length := by
  simp [fixRows_eq_map]

theorem fixRows_getElem? (res : List models.List) (i : Nat) :
    (fixRows res)[i]? = (res[i]?).map fixRow := by
  simp [fixRows_eq_map]

theorem fixRow_tags_ne_none (v : models.List) : (fixRow v).Tags ≠ none := by
  unfold fixRow; cases v.Tags <;> simp

/-- The outcome of `handleGetLists` on the full-query path when the Store returns
at least one row. -/
theorem handleGetLists_full (gp : url.Values → Int → pagination) (c : Context)
    (v : models.List) (rest : List models.List)
    (hpath : fullQueryPath c) (hq : storeQuery gp c = .ok (v :: rest)) :
    (handleGetLists gp c).effects =
        [Effect.QueryLists (strings.TrimSpace (c.FormValue "query")) (c.FormValue "order_by")
          (c.FormValue "order") (gp c.QueryParams 20).Offset (gp c.QueryParams 20).Limit] ∧
    (handleGetLists gp c).out =
      if 0 < (strconv.Atoi (c.Param "id")).1 then
        .JSON http.StatusOK (.list (fixRow v))
      else
        .JSON http.StatusOK (.wrap
          { Results := fixRows (v :: rest)
            Total := v.Total
            PerPage := if (gp c.QueryParams 20).PerPage = 0 then v.Total
              else (gp c.QueryParams 20).PerPage
            Page := (gp c.QueryParams 20).Page }) := by
  unfold storeQuery at hq
  unfold fullQueryPath at hpath
  by_cases hid : 0 < (strconv.Atoi (c.Param "id")).1
  · simp [handleGetLists, hq, hid, fixRows, fixRow]
  · have hmin : strconv.ParseBool (c.FormValue "minimal") = false := by
      rcases hpath with h | h
      · exact absurd h hid
      · exact h
    simp [handleGetLists, hq, hid, hmin, fixRows, fixRow]

/-- What one loop iteration does to the count field of a row. -/
theorem fixRow_count (v : models.List) :
    (fixRow v).SubscriberCounts = v.SubscriberCounts ∧
    (isGoInt v.SubscriberCount →
      (fixRow v).SubscriberCount = wrapInt (v.SubscriberCount + countsSum v.SubscriberCounts)) ∧
    (v.SubscriberCount = 0 → isGoInt (countsSum v.SubscriberCounts) →
      (fixRow v).SubscriberCount = countsSum (fixRow v).SubscriberCounts) := by
  refine ⟨rfl, fun h => addCounts_eq _ _ h, fun h0 hs => ?_⟩
  have hz : isGoInt v.SubscriberCount := by rw [h0]; decide
  show addCounts v.SubscriberCount v.SubscriberCounts = countsSum v.SubscriberCounts
  rw [addCounts_eq _ _ hz, h0, zero_add, wrapInt_of_isGoInt _ hs]

/-- A path id whose digits overflow 64 bits parses to the largest `int` even when
other bytes follow, so `GET /lists/99999999999999999999x?minimal=true` is a
single-record request: the Store's `QueryLists` is called and one `List` comes back. -/
theorem handleGetLists_overflowing_id :
    strconv.Atoi "99999999999999999999x" =
      (9223372036854775807, some strconv.NumError.ErrRange) ∧
    handleGetLists samplePagination
        (sampleRequest [sampleRowZero] "99999999999999999999x" [("minimal", "true")] sampleRow) =
      { effects := [Effect.QueryLists "" "" "" 0 20]
        out := .JSON 200 (.list { sampleRowZero with Tags := some [], SubscriberCount := 1 }) } ∧
    (handleGetLists samplePagination
        (sampleRequest [] "99999999999999999999x" [] sampleRow)).out =
      .err (GoError.HTTPError 400 "globals.messages.notFound") := by
  refine ⟨?_, ?_, ?_⟩ <;> decide

/-! ## The claims -/

/-- C1 (amended): on the full-query path with at least one row from the Store, the
response carries at least one row, and row `i` of the response has the same
`subscriber_counts` mapping as row `i` of the Store and a `subscriber_count` equal to
the value the Store had put in that field plus the sum of the mapping values, in 64
bit wrapping arithmetic; when the Store left the field at zero and the sum fits an
`int`, `subscriber_count` equals the sum of the row's `subscriber_counts` values. -/
theorem handleGetLists_subscriber_count (gp : url.Values → Int → pagination) (c : Context)
    (res : List models.List) (hpath : fullQueryPath c) (hq : storeQuery gp c = .ok res)
    (hne : res ≠ []) :
    rowsOf (handleGetLists gp c).out ≠ [] ∧
    ∀ (i : Nat) (row : models.List), (rowsOf (handleGetLists gp c).out)[i]? = some row →
      ∃ v, res[i]? = some v ∧ row.SubscriberCounts = v.SubscriberCounts ∧
        (isGoInt v.SubscriberCount →
          row.SubscriberCount = wrapInt (v.SubscriberCount + countsSum v.SubscriberCounts)) ∧
        (v.SubscriberCount = 0 → isGoInt (countsSum v.SubscriberCounts) →
          row.SubscriberCount = countsSum row.SubscriberCounts) := by
  cases res with
  | nil => exact absurd rfl hne
  | cons v rest =>
    obtain ⟨-, hout⟩ := handleGetLists_full gp c v rest hpath hq
    rw [hout]
    by_cases hid : 0 < (strconv.Atoi (c.Param "id")).1
    · rw [if_pos hid]
      refine ⟨by simp [rowsOf], fun i row hrow => ?_⟩
      cases i with
      | zero =>
        simp only [rowsOf, List.getElem?_cons_zero, Option.some.injEq] at hrow
        subst hrow
        exact ⟨v, by simp, fixRow_count v⟩
      | succ n => simp [rowsOf] at hrow
    · rw [if_neg hid]
      refine ⟨by simp [rowsOf, fixRows], fun i row hrow => ?_⟩
      simp only [rowsOf] at hrow
      rw [fixRows_getElem?] at hrow
      cases hv : (v :: rest)[i]? with
      | none => rw [hv] at hrow; simp at hrow
      | some w =>
        rw [hv] at hrow
        simp only [Option.map_some', Option.some.injEq] at hrow
        subst hrow
        exact ⟨w, rfl, fixRow_count w⟩

/-- Witness of C1 (amended): a listing request against a Store whose single row has
its count field at zero. -/
theorem handleGetLists_subscriber_count_witness :
    fullQueryPath (sampleRequest [sampleRowZero] "" [] sampleRow) ∧
    storeQuery samplePagination (sampleRequest [sampleRowZero] "" [] sampleRow)
      = .ok [sampleRowZero] ∧
    rowsOf (handleGetLists samplePagination
      (sampleRequest [sampleRowZero] "" [] sampleRow)).out ≠ [] :=
  ⟨by decide, rfl,
    (handleGetLists_subscriber_count samplePagination
      (sampleRequest [sampleRowZero] "" [] sampleRow) [sampleRowZero]
      (by decide) rfl (by simp)).1⟩

/-- C1 as stated fails: the Store returns one row whose count field already holds 5
and whose mapping sums to 1; the response row has `subscriber_count` 6, not 1. -/
theorem handleGetLists_subscriber_count_counterexample :
    fullQueryPath (sampleRequest [sampleRow] "" [] sampleRow) ∧
    storeQuery samplePagination (sampleRequest [sampleRow] "" [] sampleRow) = .ok [sampleRow] ∧
    ∃ row, row ∈ rowsOf (handleGetLists samplePagination
        (sampleRequest [sampleRow] "" [] sampleRow)).out ∧
      row.SubscriberCount = 6 ∧ countsSum row.SubscriberCounts = 1 ∧
      row.SubscriberCount ≠ countsSum row.SubscriberCounts := by
  refine ⟨by decide, rfl, { sampleRow with Tags := some [], SubscriberCount := 6 }, ?_, ?_, ?_, ?_⟩
  · decide
  · rfl
  · decide
  · decide

/-- C2, evaluated at the failing input: a minimal listing (`minimal=true`, no id)
against a Store holding one list with nil tags answers 200 with that list unchanged,
its tags still nil, while the full listing of the same Store replaces them by the
empty sequence. -/
theorem handleGetLists_minimal_nil_tags :
    sampleRow.Tags = none ∧
    (handleGetLists samplePagination
      (sampleRequest [sampleRow] "" [("minimal", "true")] sampleRow)).out =
      .JSON 200 (.wrap { Results := [sampleRow], Total := 1, PerPage := 1, Page := 1 }) ∧
    (rowsOf (handleGetLists samplePagination
      (sampleRequest [sampleRow] "" [("minimal", "true")] sampleRow)).out).map
        (fun l => l.Tags) = [none] ∧
    (rowsOf (handleGetLists samplePagination
      (sampleRequest [sampleRow] "" [] sampleRow)).out).map (fun l => l.Tags) = [some []] := by
  refine ⟨rfl, ?_, ?_, ?_⟩ <;> decide

/-- C3, evaluated at the failing input: an `order_by` value outside
`listQuerySortFields` is handed to the Store's `QueryLists` as supplied, and the
request is answered with the rows the Store returns. -/
theorem handleGetLists_order_by_unchecked :
    "id; DROP TABLE lists" ∉ listQuerySortFields ∧
    (handleGetLists samplePagination
      (sampleRequest [sampleRow] "" [("order_by", "id; DROP TABLE lists")] sampleRow)).effects =
      [Effect.QueryLists "" "id; DROP TABLE lists" "" 0 20] ∧
    rowsOf (handleGetLists samplePagination
      (sampleRequest [sampleRow] "" [("order_by", "id; DROP TABLE lists")] sampleRow)).out ≠ [] := by
  refine ⟨?_, ?_, ?_⟩ <;> decide

/-- C4, evaluated at the failing input: a request for list 42 against a Store whose
query returns the list with id 1 issues a `QueryLists` call that carries no id and
answers 200 with the list whose id is 1. -/
theorem handleGetLists_single_wrong_id :
    (strconv.Atoi ((sampleRequest [sampleRow] "42" [] sampleRow).Param "id")).1 = 42 ∧
    (handleGetLists samplePagination (sampleRequest [sampleRow] "42" [] sampleRow)).effects =
      [Effect.QueryLists "" "" "" 0 20] ∧
    (handleGetLists samplePagination (sampleRequest [sampleRow] "42" [] sampleRow)).out =
      .JSON 200 (.list { sampleRow with Tags := some [], SubscriberCount := 6 }) ∧
    ({ sampleRow with Tags := some [], SubscriberCount := 6 } : models.List).ID = 1 := by
  refine ⟨?_, ?_, ?_, ?_⟩ <;> decide

/-- C5: in minimal mode (no positive id, `minimal` truthy), when the Store's `GetLists`
returns a non-empty sequence, the only Store call is `GetLists("")` (so `QueryLists`
is not called) and the response is 200 with the envelope whose results are the Store's
lists unchanged and in order, `total = per_page = ` their number, and `page = 1`,
whatever the pagination parser and the paging parameters are. -/
theorem handleGetLists_minimal (gp : url.Values → Int → pagination) (c : Context)
    (res : List models.List) (hid : ¬ 0 < (strconv.Atoi (c.Param "id")).1)
    (hmin : strconv.ParseBool (c.FormValue "minimal") = true)
    (hs : c.app.core.GetLists "" = .ok res) (hne : res ≠ []) :
    handleGetLists gp c =
      { effects := [Effect.GetLists ""]
        out := .JSON 200 (.wrap
          { Results := res, Total := res.length, PerPage := res.length, Page := 1 }) } := by
  simp [handleGetLists, hid, hmin, hs, hne, http.StatusOK]

/-- Witness of C5: `GET /lists?minimal=true&page=7&per_page=2` against three lists. -/
theorem handleGetLists_minimal_witness :
    handleGetLists samplePagination
      (sampleRequest [sampleRow, sampleRowZero, sampleRow] ""
        [("minimal", "true"), ("page", "7"), ("per_page", "2")] sampleRow) =
      { effects := [Effect.GetLists ""]
        out := .JSON 200 (.wrap
          { Results := [sampleRow, sampleRowZero, sampleRow], Total := 3, PerPage := 3,
            Page := 1 }) } :=
  handleGetLists_minimal samplePagination
    (sampleRequest [sampleRow, sampleRowZero, sampleRow] ""
      [("minimal", "true"), ("page", "7"), ("per_page", "2")] sampleRow)
    [sampleRow, sampleRowZero, sampleRow] (by decide) (by decide) rfl (by simp)

/-- C6: on the full-query path, when the Store's `QueryLists` succeeds with zero rows,
a request with a positive id fails with the HTTP 400 not-found error and a request
without one succeeds with 200 and the empty-sequence payload; in neither case is an
envelope returned. Moreover a request with a positive id never yields the
empty-sequence success, whatever the Store answers. -/
theorem handleGetLists_zero_rows (gp : url.Values → Int → pagination) (c : Context) :
    (fullQueryPath c → storeQuery gp c = .ok [] →
      (0 < (strconv.Atoi (c.Param "id")).1 →
        (handleGetLists gp c).out = .err (GoError.HTTPError 400
          (c.app.i18n.Ts "globals.messages.notFound" ["name", "\x7bglobals.terms.list\x7d"]))) ∧
      (¬ 0 < (strconv.Atoi (c.Param "id")).1 →
        (handleGetLists gp c).out = .JSON 200 .emptySeq) ∧
      (∀ code w, (handleGetLists gp c).out ≠ .JSON code (.wrap w))) ∧
    (0 < (strconv.Atoi (c.Param "id")).1 →
      ∀ code, (handleGetLists gp c).out ≠ .JSON code .emptySeq) := by
  constructor
  · intro hpath hq
    unfold storeQuery at hq
    unfold fullQueryPath at hpath
    by_cases hid : 0 < (strconv.Atoi (c.Param "id")).1
    · simp [handleGetLists, hq, hid, echo.NewHTTPError, http.StatusBadRequest]
    · have hmin : strconv.ParseBool (c.FormValue "minimal") = false := by
        rcases hpath with h | h
        · exact absurd h hid
        · exact h
      simp [handleGetLists, hq, hid, hmin, http.StatusOK]
  · intro hid code
    cases hres : storeQuery gp c with
    | error e =>
      unfold storeQuery at hres
      simp [handleGetLists, hres, hid]
    | ok res =>
      cases res with
      | nil =>
        unfold storeQuery at hres
        simp [handleGetLists, hres, hid]
      | cons v rest =>
        obtain ⟨-, hout⟩ := handleGetLists_full gp c v rest (Or.inl hid) hres
        rw [hout, if_pos hid]
        simp

/-- Witness of C6: `GET /lists/42` against an empty Store, and `GET /lists` against
an empty Store. -/
theorem handleGetLists_zero_rows_witness :
    (handleGetLists samplePagination (sampleRequest [] "42" [] sampleRow)).out =
      .err (GoError.HTTPError 400 "globals.messages.notFound") ∧
    (handleGetLists samplePagination (sampleRequest [] "" [] sampleRow)).out =
      .JSON 200 .emptySeq :=
  ⟨((handleGetLists_zero_rows samplePagination (sampleRequest [] "42" [] sampleRow)).1
      (by decide) rfl).1 (by decide),
   ((handleGetLists_zero_rows samplePagination (sampleRequest [] "" [] sampleRow)).1
      (by decide) rfl).2.1 (by decide)⟩

theorem len_nonneg (s : String) : 0 ≤ len s := by
  unfold len; exact Int.ofNat_nonneg _

theorem strHasLen_iff (n : Int) (l : models.List) :
    strHasLen l.Name 1 n = true ↔ nameLenOk n l := by
  simp [strHasLen, nameLenOk]

/-- C7: for a payload that binds to `l`, `handleCreateList` calls the Store's
`CreateList` if and only if the length of the name lies in `[1, stdInputMaxLen]`, and
then once, with `l`; an empty name or a name longer than `stdInputMaxLen` yields the
HTTP 400 invalid-name error with no Store call; and when the Store call succeeds the
response is 200 with the `List` the Store returned. -/
theorem handleCreateList_spec (stdInputMaxLen : Int) (c : Context) (l : models.List)
    (hb : c.Bind = .ok l) :
    ((∃ x, Effect.CreateList x ∈ (handleCreateList stdInputMaxLen c).effects) ↔
      nameLenOk stdInputMaxLen l) ∧
    (nameLenOk stdInputMaxLen l →
      (handleCreateList stdInputMaxLen c).effects = [Effect.Bind, Effect.CreateList l]) ∧
    (len l.Name = 0 ∨ stdInputMaxLen < len l.Name →
      handleCreateList stdInputMaxLen c =
        { effects := [Effect.Bind]
          out := .err (GoError.HTTPError 400 (c.app.i18n.T "lists.invalidName")) }) ∧
    (∀ out, nameLenOk stdInputMaxLen l → c.app.core.CreateList l = .ok out →
      handleCreateList stdInputMaxLen c =
        { effects := [Effect.Bind, Effect.CreateList l], out := .JSON 200 (.list out) }) := by
  by_cases hok : nameLenOk stdInputMaxLen l
  · have hs : strHasLen l.Name 1 stdInputMaxLen = true := (strHasLen_iff _ _).2 hok
    have hbad : ¬ (len l.Name = 0 ∨ stdInputMaxLen < len l.Name) := by
      unfold nameLenOk at hok; omega
    refine ⟨?_, ?_, fun h => absurd h hbad, ?_⟩
    · refine ⟨fun _ => hok, fun _ => ⟨l, ?_⟩⟩
      cases hc : c.app.core.CreateList l <;> simp [handleCreateList, hb, hs, hc]
    · intro _
      cases hc : c.app.core.CreateList l <;> simp [handleCreateList, hb, hs, hc]
    · intro out _ hc
      simp [handleCreateList, hb, hs, hc, http.StatusOK]
  · have hs : strHasLen l.Name 1 stdInputMaxLen = false := by
      cases h : strHasLen l.Name 1 stdInputMaxLen
      · rfl
      · exact absurd ((strHasLen_iff _ _).1 h) hok
    have hres : handleCreateList stdInputMaxLen c =
        { effects := [Effect.Bind]
          out := .err (GoError.HTTPError 400 (c.app.i18n.T "lists.invalidName")) } := by
      simp [handleCreateList, hb, hs, echo.NewHTTPError, http.StatusBadRequest]
    refine ⟨?_, fun h => absurd h hok, fun _ => hres, fun _ h _ => absurd h hok⟩
    rw [hres]
    simp [hok]

/-- Witness of C7: `POST /lists` with the name `news` and a maximum length of 200,
and `POST /lists` with an empty name. -/
theorem handleCreateList_spec_witness :
    (sampleRequest [] "" [] sampleRow).Bind = .ok sampleRow ∧
    nameLenOk 200 sampleRow ∧
    handleCreateList 200 (sampleRequest [] "" [] sampleRow) =
      { effects := [Effect.Bind, Effect.CreateList sampleRow]
        out := .JSON 200 (.list sampleRow) } ∧
    handleCreateList 200 (sampleRequest [] "" [] { sampleRow with Name := "" }) =
      { effects := [Effect.Bind], out := .err (GoError.HTTPError 400 "lists.invalidName") } :=
  ⟨rfl, by decide,
    (handleCreateList_spec 200 (sampleRequest [] "" [] sampleRow) sampleRow rfl).2.2.2
      sampleRow (by decide) rfl,
    (handleCreateList_spec 200 (sampleRequest [] "" [] { sampleRow with Name := "" })
      { sampleRow with Name := "" } rfl).2.2.1 (by decide)⟩

/-- C8 (amended): with `id` the value `strconv.ParseInt` yields for the path id, its
error dropped, `handleDeleteLists` fails with the HTTP 400 invalid-id error and
performs no Store call when `id < 1`; an absent path id parses to 0, and so does every
path id that `ParseInt` rejects with a syntax error. When `id` is positive the Store's
`DeleteLists` is called exactly once, with the singleton `[id]`, and when that call
succeeds the response is 200 with data `true`, while a Store error is handed back as
it is. -/
theorem handleDeleteLists_spec (c : Context) :
    ((strconv.ParseInt (c.Param "id")).1 < 1 →
      handleDeleteLists c =
        { effects := []
          out := .err (GoError.HTTPError 400 (c.app.i18n.T "globals.messages.invalidID")) }) ∧
    (c.Param "id" = "" → (strconv.ParseInt (c.Param "id")).1 = 0) ∧
    ((strconv.ParseInt (c.Param "id")).2 = some strconv.NumError.ErrSyntax →
      (strconv.ParseInt (c.Param "id")).1 = 0) ∧
    (0 < (strconv.ParseInt (c.Param "id")).1 →
      (handleDeleteLists c).effects =
        [Effect.DeleteLists [(strconv.ParseInt (c.Param "id")).1]] ∧
      (c.app.core.DeleteLists [(strconv.ParseInt (c.Param "id")).1] = none →
        (handleDeleteLists c).out = .JSON 200 (.bool true)) ∧
      (∀ e, c.app.core.DeleteLists [(strconv.ParseInt (c.Param "id")).1] = some e →
        (handleDeleteLists c).out = .err e)) := by
  refine ⟨?_, ?_, strconv.ParseInt_syntax _, ?_⟩
  · intro h
    simp [handleDeleteLists, h, echo.NewHTTPError, http.StatusBadRequest]
  · intro h
    rw [h]
    decide
  · intro h
    have h1 : ¬ (strconv.ParseInt (c.Param "id")).1 < 1 := by omega
    cases hd : c.app.core.DeleteLists [(strconv.ParseInt (c.Param "id")).1] <;>
      simp [handleDeleteLists, h, h1, hd, http.StatusOK]

/-- Witness of C8 (amended): `DELETE /lists/abc`, whose id is a syntax error and so
parses to 0, `DELETE /lists/` with no id, and `DELETE /lists/42`. -/
theorem handleDeleteLists_spec_witness :
    handleDeleteLists (sampleRequest [sampleRow] "abc" [] sampleRow) =
      { effects := [], out := .err (GoError.HTTPError 400 "globals.messages.invalidID") } ∧
    (strconv.ParseInt ((sampleRequest [sampleRow] "abc" [] sampleRow).Param "id")).1 = 0 ∧
    (strconv.ParseInt ((sampleRequest [sampleRow] "" [] sampleRow).Param "id")).1 = 0 ∧
    (handleDeleteLists (sampleRequest [sampleRow] "42" [] sampleRow)).effects =
      [Effect.DeleteLists [42]] ∧
    (handleDeleteLists (sampleRequest [sampleRow] "42" [] sampleRow)).out =
      .JSON 200 (.bool true) :=
  ⟨(handleDeleteLists_spec (sampleRequest [sampleRow] "abc" [] sampleRow)).1 (by decide),
   (handleDeleteLists_spec (sampleRequest [sampleRow] "abc" [] sampleRow)).2.2.1 (by decide),
   (handleDeleteLists_spec (sampleRequest [sampleRow] "" [] sampleRow)).2.1 rfl,
   ((handleDeleteLists_spec (sampleRequest [sampleRow] "42" [] sampleRow)).2.2.2 (by decide)).1,
   ((handleDeleteLists_spec (sampleRequest [sampleRow] "42" [] sampleRow)).2.2.2
      (by decide)).2.1 rfl⟩

/-- C8 as stated fails: the path id `99999999999999999999x` is not a number, yet its
digits overflow 64 bits before the `x` is read, `ParseInt` yields 9223372036854775807
with a range error, and with the error dropped the handler calls the Store's
`DeleteLists` with that id and answers 200 instead of the invalid-id error. -/
theorem handleDeleteLists_non_numeric_counterexample :
    "99999999999999999999x".data.all Char.isDigit = false ∧
    strconv.ParseInt "99999999999999999999x" =
      (9223372036854775807, some strconv.NumError.ErrRange) ∧
    handleDeleteLists (sampleRequest [sampleRow] "99999999999999999999x" [] sampleRow) =
      { effects := [Effect.DeleteLists [9223372036854775807]]
        out := .JSON 200 (.bool true) } := by
  refine ⟨?_, ?_, ?_⟩ <;> decide

/-- C9 (amended): with `id` the value `strconv.Atoi` yields for the path id, its error
dropped, `handleUpdateList` fails with the HTTP 400 invalid-id error when `id < 1` and
has then performed no effect at all: the payload is not bound, so its name plays no
part, and the Store is not called; a missing path id parses to 0, and so does every
path id that `Atoi` rejects with a syntax error. For a positive `id` and a payload that
binds to `l`, the Store's `UpdateList` is called if and only if the length of the name
lies in `[1, stdInputMaxLen]`, and then once, with that id and `l`; an error of the
Store is returned unchanged and its result is the 200 response. -/
theorem handleUpdateList_spec (stdInputMaxLen : Int) (c : Context) :
    ((strconv.Atoi (c.Param "id")).1 < 1 →
      handleUpdateList stdInputMaxLen c =
        { effects := []
          out := .err (GoError.HTTPError 400 (c.app.i18n.T "globals.messages.invalidID")) }) ∧
    (c.Param "id" = "" → (strconv.Atoi (c.Param "id")).1 = 0) ∧
    ((strconv.Atoi (c.Param "id")).2 = some strconv.NumError.ErrSyntax →
      (strconv.Atoi (c.Param "id")).1 = 0) ∧
    (0 < (strconv.Atoi (c.Param "id")).1 → ∀ l, c.Bind = .ok l →
      ((∃ i x, Effect.UpdateList i x ∈ (handleUpdateList stdInputMaxLen c).effects) ↔
        nameLenOk stdInputMaxLen l) ∧
      (nameLenOk stdInputMaxLen l →
        (handleUpdateList stdInputMaxLen c).effects =
          [Effect.Bind, Effect.UpdateList ((strconv.Atoi (c.Param "id")).1) l]) ∧
      (¬ nameLenOk stdInputMaxLen l →
        handleUpdateList stdInputMaxLen c =
          { effects := [Effect.Bind]
            out := .err (GoError.HTTPError 400 (c.app.i18n.T "lists.invalidName")) }) ∧
      (∀ e, nameLenOk stdInputMaxLen l →
        c.app.core.UpdateList ((strconv.Atoi (c.Param "id")).1) l = .error e →
        (handleUpdateList stdInputMaxLen c).out = .err e) ∧
      (∀ out, nameLenOk stdInputMaxLen l →
        c.app.core.UpdateList ((strconv.Atoi (c.Param "id")).1) l = .ok out →
        (handleUpdateList stdInputMaxLen c).out = .JSON 200 (.list out))) := by
  refine ⟨?_, ?_, strconv.Atoi_syntax _, ?_⟩
  · intro h
    simp [handleUpdateList, h, echo.NewHTTPError, http.StatusBadRequest]
  · intro h
    rw [h]
    decide
  · intro h l hb
    have h1 : ¬ (strconv.Atoi (c.Param "id")).1 < 1 := by omega
    by_cases hok : nameLenOk stdInputMaxLen l
    · have hs : strHasLen l.Name 1 stdInputMaxLen = true := (strHasLen_iff _ _).2 hok
      refine ⟨?_, ?_, fun hn => absurd hok hn, ?_, ?_⟩
      · refine ⟨fun _ => hok, fun _ => ⟨(strconv.Atoi (c.Param "id")).1, l, ?_⟩⟩
        cases hc : c.app.core.UpdateList ((strconv.Atoi (c.Param "id")).1) l <;>
          simp [handleUpdateList, h1, hb, hs, hc]
      · intro _
        cases hc : c.app.core.UpdateList ((strconv.Atoi (c.Param "id")).1) l <;>
          simp [handleUpdateList, h1, hb, hs, hc]
      · intro e _ hc
        simp [handleUpdateList, h1, hb, hs, hc]
      · intro out _ hc
        simp [handleUpdateList, h1, hb, hs, hc, http.StatusOK]
    · have hs : strHasLen l.Name 1 stdInputMaxLen = false := by
        cases hh : strHasLen l.Name 1 stdInputMaxLen
        · rfl
        · exact absurd ((strHasLen_iff _ _).1 hh) hok
      have hres : handleUpdateList stdInputMaxLen c =
          { effects := [Effect.Bind]
            out := .err (GoError.HTTPError 400 (c.app.i18n.T "lists.invalidName")) } := by
        simp [handleUpdateList, h1, hb, hs, echo.NewHTTPError, http.StatusBadRequest]
      refine ⟨?_, fun hh => absurd hh hok, fun _ => hres, fun _ hh _ => absurd hh hok,
        fun _ hh _ => absurd hh hok⟩
      rw [hres]
      simp [hok]

/-- Witness of C9 (amended): `PUT /lists/0` and `PUT /lists/abc` with an empty name
are answered invalid-id with no effect, a missing id parses to 0, and `PUT /lists/7`
with the name `news` reaches the Store. -/
theorem handleUpdateList_spec_witness :
    handleUpdateList 200 (sampleRequest [] "0" [] { sampleRow with Name := "" }) =
      { effects := [], out := .err (GoError.HTTPError 400 "globals.messages.invalidID") } ∧
    handleUpdateList 200 (sampleRequest [] "abc" [] { sampleRow with Name := "" }) =
      { effects := [], out := .err (GoError.HTTPError 400 "globals.messages.invalidID") } ∧
    (strconv.Atoi ((sampleRequest [] "abc" [] sampleRow).Param "id")).1 = 0 ∧
    (strconv.Atoi ((sampleRequest [] "" [] sampleRow).Param "id")).1 = 0 ∧
    (handleUpdateList 200 (sampleRequest [] "7" [] sampleRow)).effects =
      [Effect.Bind, Effect.UpdateList 7 sampleRow] :=
  ⟨(handleUpdateList_spec 200 (sampleRequest [] "0" [] { sampleRow with Name := "" })).1
      (by decide),
   (handleUpdateList_spec 200 (sampleRequest [] "abc" [] { sampleRow with Name := "" })).1
      (by decide),
   (handleUpdateList_spec 200 (sampleRequest [] "abc" [] sampleRow)).2.2.1 (by decide),
   (handleUpdateList_spec 200 (sampleRequest [] "" [] sampleRow)).2.1 rfl,
   ((handleUpdateList_spec 200 (sampleRequest [] "7" [] sampleRow)).2.2.2 (by decide)
      sampleRow rfl).2.1 (by decide)⟩

/-- C9 as stated fails: the path id `99999999999999999999x` is not a number, yet its
digits overflow 64 bits before the `x` is read, `Atoi` yields 9223372036854775807 with
a range error, and with the error dropped the handler binds the payload and calls the
Store's `UpdateList` with that id instead of failing with the invalid-id error. -/
theorem handleUpdateList_non_numeric_counterexample :
    "99999999999999999999x".data.all Char.isDigit = false ∧
    strconv.Atoi "99999999999999999999x" =
      (9223372036854775807, some strconv.NumError.ErrRange) ∧
    handleUpdateList 200 (sampleRequest [] "99999999999999999999x" [] sampleRow) =
      { effects := [Effect.Bind, Effect.UpdateList 9223372036854775807 sampleRow]
        out := .JSON 200 (.list sampleRow) } := by
  refine ⟨?_, ?_, ?_⟩ <;> decide

/-- C10: on the full-listing path (no positive id, `minimal` not set), when the Store's
`QueryLists` returns a non-empty sequence `res`, the response is 200 with an envelope
whose `total` is the `Total` field of row 0, whose `page` is the parsed page number,
whose `per_page` is the parsed page size when that is not zero and `total` when it is
zero, and whose results are as many as the Store's rows and in the same order: row `i`
of the results is row `i` of the Store after the loop, with its id, name, type,
counts mapping, timestamps and total unchanged. -/
theorem handleGetLists_envelope (gp : url.Values → Int → pagination) (c : Context)
    (res : List models.List) (hid : ¬ 0 < (strconv.Atoi (c.Param "id")).1)
    (hmin : strconv.ParseBool (c.FormValue "minimal") = false)
    (hq : storeQuery gp c = .ok res) (hne : res ≠ []) :
    ∃ w, (handleGetLists gp c).out = .JSON 200 (.wrap w) ∧
      w.Total = (res.head hne).Total ∧
      w.Page = (gp c.QueryParams 20).Page ∧
      ((gp c.QueryParams 20).PerPage ≠ 0 → w.PerPage = (gp c.QueryParams 20).PerPage) ∧
      ((gp c.QueryParams 20).PerPage = 0 → w.PerPage = w.Total) ∧
      w.Results.length = res.length ∧
      w.Results = res.map fixRow ∧
      ∀ (i : Nat) (v : models.List), res[i]? = some v →
        ∃ r, w.Results[i]? = some r ∧ r.ID = v.ID ∧ r.Name = v.Name ∧ r.Type_ = v.Type_ ∧
          r.SubscriberCounts = v.SubscriberCounts ∧ r.CreatedAt = v.CreatedAt ∧
          r.UpdatedAt = v.UpdatedAt ∧ r.Total = v.Total := by
  cases res with
  | nil => exact absurd rfl hne
  | cons v rest =>
    obtain ⟨-, hout⟩ := handleGetLists_full gp c v rest (Or.inr hmin) hq
    rw [if_neg hid] at hout
    refine ⟨_, hout, rfl, rfl, ?_, ?_, ?_, ?_, ?_⟩
    · intro h; simp [h]
    · intro h; simp [h]
    · exact fixRows_length _
    · exact fixRows_eq_map _
    · intro i w hw
      refine ⟨fixRow w, ?_, rfl, rfl, rfl, rfl, rfl, rfl, rfl⟩
      show (fixRows (v :: rest))[i]? = some (fixRow w)
      rw [fixRows_getElem?, hw]
      rfl

/-- Witness of C10: `GET /lists` against a Store holding two lists. -/
theorem handleGetLists_envelope_witness :
    ∃ w, (handleGetLists samplePagination
        (sampleRequest [sampleRowZero, sampleRow] "" [] sampleRow)).out = .JSON 200 (.wrap w) ∧
      w.Total = 1 ∧ w.Page = 1 ∧ w.Results.length = 2 := by
  obtain ⟨w, h1, h2, h3, -, -, h6, -⟩ :=
    handleGetLists_envelope samplePagination
      (sampleRequest [sampleRowZero, sampleRow] "" [] sampleRow) [sampleRowZero, sampleRow]
      (by decide) (by decide) rfl (by simp)
  exact ⟨w, h1, h2, h3, h6⟩
